import Mathlib

/-!
Shallow embedding of the WASM linear-heap bump allocator from
src/src/wasm/stdlib.c, together with theorems settling the specification
claims about it.

The C code runs on wasm32: pointers and size_t are 32 bits, linear memory is
a flat byte array growable in 64 KiB pages up to 65536 pages, and
__builtin_wasm_memory_grow returns the previous page count on success and
SIZE_MAX on refusal.  Addresses are modelled as Nat with an explicit
mod 2^32 exactly where the source casts to uint32 or does size_t/pointer
wrap-around arithmetic; memory is a function from addresses to bytes.
-/

namespace WasmStdlib

/-- 2^32, the size of the wasm32 address space. -/
def U32 : Nat := 4294967296

/-- SIZE_MAX on wasm32 (the failure value of memory.grow). -/
def SIZE_MAX : Nat := 4294967295

/-- PAGESIZE from stdlib.c: 0x10000. -/
def PAGESIZE : Nat := 65536

/-- MAX_HEAP_SIZE from stdlib.c: 4 * 1024 * 1024. -/
def MAX_HEAP_SIZE : Nat := 4194304

/-- Maximum number of 64 KiB pages of a wasm32 linear memory. -/
def WASM_MAX_PAGES : Nat := 65536

/-- Linear memory: byte value at each address. -/
def Mem : Type := Nat → Nat

/-- The allocator's global state: the three static Region pointers of
stdlib.c (heap_start, heap_end, next), plus the wasm linear memory they
live in (current size in pages, and the byte contents). -/
structure Heap where
  heap_start : Nat
  heap_end : Nat
  next : Nat
  pages : Nat
  mem : Mem

/-- Write the 32-bit little-endian value v at address a
(a size_t store such as region->size = size). -/
def store32 (m : Mem) (a v : Nat) : Mem := fun x =>
  if x = a then v % 256
  else if x = a + 1 then v / 256 % 256
  else if x = a + 2 then v / 65536 % 256
  else if x = a + 3 then v / 16777216 % 256
  else m x

/-- Read the 32-bit little-endian value at address a
(a size_t load such as region->size). -/
def load32 (m : Mem) (a : Nat) : Nat :=
  m a + 256 * m (a + 1) + 65536 * m (a + 2) + 16777216 * m (a + 3)

/-- memset(a, c, n): fill n bytes starting at address a with byte c. -/
def memset (m : Mem) (a c n : Nat) : Mem := fun x =>
  if a ≤ x ∧ x < a + n then c % 256 else m x

/-- memcpy(dst, src, n): copy n bytes from src to dst (non-overlapping). -/
def memcpy (m : Mem) (dst src n : Nat) : Mem := fun x =>
  if dst ≤ x ∧ x < dst + n then m (src + (x - dst)) else m x

/-- The signed 32-bit value of the ptrdiff_t a - b, as computed by
(char *)a - (char *)b on wasm32. -/
def ptrdiff32 (a b : Nat) : Int :=
  let d := ((a : Int) - (b : Int)) % (U32 : Int)
  if d < 2147483648 then d else d - (U32 : Int)

/-- region_for_ptr from stdlib.c: ((Region *)ptr) - 1, i.e. the header
address 4 bytes (sizeof(Region)) below the payload, with wasm32 pointer
wrap-around. -/
def region_for_ptr (p : Nat) : Nat := (p + (U32 - 4)) % U32

/-- region_after from stdlib.c: the address of the next region after a
region at address self holding len payload bytes: self->data + len
rounded up to a 4-byte boundary, computed in uint32 arithmetic
((uint32_t)(address + 3) & ~0x3). -/
def region_after (self len : Nat) : Nat :=
  ((self + 4 + len + 3) % U32) / 4 * 4

/-- get_heap_end from stdlib.c: __builtin_wasm_memory_size(0) * PAGESIZE,
as a wasm32 pointer value. -/
def get_heap_end (pages : Nat) : Nat := pages * PAGESIZE % U32

/-- __builtin_wasm_memory_grow(0, delta): if the host grants the request
and the new total fits in the wasm32 limit of 65536 pages, the memory
grows and the previous page count is returned; otherwise the memory is
unchanged and SIZE_MAX is returned.  Result: (returned value, new page
count). -/
def memory_grow (pages delta : Nat) (grant : Bool) : Nat × Nat :=
  if grant = true ∧ pages + delta ≤ WASM_MAX_PAGES then (pages, pages + delta)
  else (SIZE_MAX, pages)

/-- The page count grow_heap requests: ((size - 1) / PAGESIZE) + 1 in
size_t arithmetic (size - 1 wraps when size = 0). -/
def new_page_count (size : Nat) : Nat :=
  ((size + (U32 - 1)) % U32) / PAGESIZE + 1

/-- grow_heap from stdlib.c: grow the memory and report success as
memory_grow result != MAX_HEAP_SIZE (the constant the source compares
against, flagged by its own comment as questionable).  Result: (the C
function's boolean result, new page count). -/
def grow_heap (pages size : Nat) (grant : Bool) : Bool × Nat :=
  ((memory_grow pages (new_page_count size) grant).1 != MAX_HEAP_SIZE,
   (memory_grow pages (new_page_count size) grant).2)

/-- reset_heap from stdlib.c. -/
def reset_heap (s : Heap) (new_heap_start : Nat) : Heap :=
  { s with heap_start := new_heap_start, next := new_heap_start,
           heap_end := get_heap_end s.pages }

/-- malloc from stdlib.c.  grant is the host's decision on any growth
request issued during the call.  Returns (payload address or none, new
state); NULL is modelled as none. -/
def malloc (s : Heap) (size : Nat) (grant : Bool) : Option Nat × Heap :=
  if region_after s.next size > s.heap_end then
    if ptrdiff32 (region_after s.next size) s.heap_start > (MAX_HEAP_SIZE : Int) then
      (none, s)
    else if (grow_heap s.pages size grant).1 = false then
      (none, { s with pages := (grow_heap s.pages size grant).2 })
    else
      (some (s.next + 4),
       { s with pages := (grow_heap s.pages size grant).2,
                heap_end := get_heap_end (grow_heap s.pages size grant).2,
                mem := store32 s.mem s.next size,
                next := region_after s.next size })
  else
    (some (s.next + 4),
     { s with mem := store32 s.mem s.next size,
              next := region_after s.next size })

/-- free from stdlib.c: NULL is a no-op; otherwise rewind the cursor if
the block's end equals the cursor, else do nothing. -/
def free (s : Heap) (p : Nat) : Heap :=
  if p = 0 then s
  else
    if region_after (region_for_ptr p) (load32 s.mem (region_for_ptr p)) = s.next then
      { s with next := region_for_ptr p }
    else s

/-- calloc from stdlib.c: malloc(count * size) with wrapping size_t
multiplication, then memset(result, 0, count * size) — performed even
when malloc returned NULL (address 0). -/
def calloc (s : Heap) (count size : Nat) (grant : Bool) : Option Nat × Heap :=
  ((malloc s (count * size % U32) grant).1,
   { (malloc s (count * size % U32) grant).2 with
     mem := memset (malloc s (count * size % U32) grant).2.mem
              ((malloc s (count * size % U32) grant).1.getD 0) 0
              (count * size % U32) })

/-- realloc from stdlib.c: NULL acts as malloc; a tail block is rewound
and re-allocated in place; otherwise a fresh block is allocated and the
old payload (old declared size bytes) is copied over. -/
def realloc (s : Heap) (p new_size : Nat) (grant : Bool) : Option Nat × Heap :=
  if p = 0 then malloc s new_size grant
  else
    if region_after (region_for_ptr p) (load32 s.mem (region_for_ptr p)) = s.next then
      malloc { s with next := region_for_ptr p } new_size grant
    else
      ((malloc s new_size grant).1,
       { (malloc s new_size grant).2 with
         mem := memcpy (malloc s new_size grant).2.mem
                  ((malloc s new_size grant).1.getD 0) p
                  (load32 s.mem (region_for_ptr p)) })

/-- Run malloc on each size in turn, collecting the returned pointers. -/
def allocAll (g : Bool) : Heap → List Nat → List (Option Nat) × Heap
  | s, [] => ([], s)
  | s, sz :: rest =>
    ((malloc s sz g).1 :: (allocAll g (malloc s sz g).2 rest).1,
     (allocAll g (malloc s sz g).2 rest).2)

/-- Run free on each pointer in turn. -/
def freeAll : Heap → List Nat → Heap
  | s, [] => s
  | s, p :: rest => freeAll (free s p) rest

/-- The cursor after laying out blocks of the given payload sizes
contiguously from address a (each block's end, via region_after, is the
next block's header). -/
def layoutEnd : Nat → List Nat → Nat
  | a, [] => a
  | a, sz :: rest => layoutEnd (region_after a sz) rest

/-- The returned pointers are exactly the payload addresses of blocks laid
out contiguously from address a: each payload sits 4 bytes after its
header and each block's computed end is the next block's header. -/
def contiguousFrom : Nat → List Nat → List (Option Nat) → Prop
  | _, [], [] => True
  | a, sz :: szs, r :: rs => r = some (a + 4) ∧ contiguousFrom (region_after a sz) szs rs
  | _, _, _ => False

/-- All blocks of the given sizes fit below hend when laid out from
address a, with no uint32 wrap-around in any end-address computation. -/
def fits : Nat → List Nat → Nat → Bool
  | _, [], _ => true
  | a, sz :: rest, hend =>
    decide (a + 4 + sz + 3 < U32) && decide (region_after a sz ≤ hend) &&
      fits (region_after a sz) rest hend

/-- A fresh one-page heap reset to address 0, with zeroed memory. -/
def freshHeap : Heap :=
  { heap_start := 0, heap_end := 65536, next := 0, pages := 1, mem := fun _ => 0 }

/-- A fresh one-page heap whose memory bytes are all 1. -/
def onesHeap : Heap :=
  { heap_start := 0, heap_end := 65536, next := 0, pages := 1, mem := fun _ => 1 }

/-- A one-page heap holding a single live block of declared size 5 at
header address 0 (payload address 4, block end 12 = cursor). -/
def tailBlockHeap : Heap :=
  { heap_start := 0, heap_end := 65536, next := 12, pages := 1,
    mem := store32 (fun _ => 0) 0 5 }

lemma region_after_bounds {a len : Nat} (h : a + 4 + len + 3 < U32) :
    a + 4 + len ≤ region_after a len ∧ region_after a len ≤ a + 4 + len + 3 ∧
      region_after a len % 4 = 0 := by
  unfold region_after U32 at *
  omega

lemma region_after_mono {a l1 l2 : Nat} (h12 : l1 ≤ l2) (h : a + 4 + l2 + 3 < U32) :
    region_after a l1 ≤ region_after a l2 := by
  unfold region_after U32 at *
  omega

lemma region_for_ptr_eq {p : Nat} (h4 : 4 ≤ p) (hlt : p < U32) :
    region_for_ptr p = p - 4 := by
  unfold region_for_ptr U32 at *
  omega

lemma store32_out {m : Mem} {a v x : Nat} (h : x < a ∨ a + 3 < x) :
    store32 m a v x = m x := by
  unfold store32
  split_ifs <;> omega

lemma load32_store32_same (m : Mem) (a v : Nat) :
    load32 (store32 m a v) a = v % U32 := by
  have e0 : store32 m a v a = v % 256 := by
    unfold store32
    rw [if_pos rfl]
  have e1 : store32 m a v (a + 1) = v / 256 % 256 := by
    unfold store32
    rw [if_neg (by omega), if_pos rfl]
  have e2 : store32 m a v (a + 2) = v / 65536 % 256 := by
    unfold store32
    rw [if_neg (by omega), if_neg (by omega), if_pos rfl]
  have e3 : store32 m a v (a + 3) = v / 16777216 % 256 := by
    unfold store32
    rw [if_neg (by omega), if_neg (by omega), if_neg (by omega), if_pos rfl]
  unfold load32 U32
  rw [e0, e1, e2, e3]
  omega

lemma load32_store32_out {m : Mem} {a b v : Nat} (h : a + 4 ≤ b ∨ b + 4 ≤ a) :
    load32 (store32 m a v) b = load32 m b := by
  unfold load32
  rw [store32_out (by omega), store32_out (by omega), store32_out (by omega),
    store32_out (by omega)]

lemma load32_congr {m1 m2 : Mem} {a : Nat} (h0 : m1 a = m2 a)
    (h1 : m1 (a + 1) = m2 (a + 1)) (h2 : m1 (a + 2) = m2 (a + 2))
    (h3 : m1 (a + 3) = m2 (a + 3)) : load32 m1 a = load32 m2 a := by
  unfold load32
  rw [h0, h1, h2, h3]

lemma grow_heap_true (pages size : Nat) (grant : Bool) :
    (grow_heap pages size grant).1 = true := by
  have hd : 1 ≤ new_page_count size := by
    unfold new_page_count U32 PAGESIZE
    omega
  unfold grow_heap memory_grow
  split_ifs with h
  · have hp : pages + new_page_count size ≤ WASM_MAX_PAGES := h.2
    simp only [bne_iff_ne, ne_eq]
    unfold WASM_MAX_PAGES at hp
    unfold MAX_HEAP_SIZE
    omega
  · simp only [bne_iff_ne, ne_eq]
    unfold SIZE_MAX MAX_HEAP_SIZE
    omega

lemma malloc_fits {s : Heap} {size : Nat} (g : Bool)
    (h : region_after s.next size ≤ s.heap_end) :
    malloc s size g =
      (some (s.next + 4),
       { s with mem := store32 s.mem s.next size, next := region_after s.next size }) := by
  unfold malloc
  rw [if_neg (by omega)]

lemma malloc_some_addr {s : Heap} {size : Nat} {g : Bool} {q : Nat}
    (h : (malloc s size g).1 = some q) : q = s.next + 4 := by
  unfold malloc at h
  split_ifs at h <;> simp_all

lemma free_tail {s : Heap} {p : Nat} (hp4 : 4 ≤ p) (hpU : p < U32)
    (heq : region_after (p - 4) (load32 s.mem (p - 4)) = s.next) :
    free s p = { s with next := p - 4 } := by
  unfold free
  rw [if_neg (by omega), region_for_ptr_eq hp4 hpU, if_pos heq]

lemma free_noop {s : Heap} {p : Nat} (hp4 : 4 ≤ p) (hpU : p < U32)
    (hne : region_after (p - 4) (load32 s.mem (p - 4)) ≠ s.next) :
    free s p = s := by
  unfold free
  rw [if_neg (by omega), region_for_ptr_eq hp4 hpU, if_neg hne]

lemma freeAll_append (s : Heap) (l1 l2 : List Nat) :
    freeAll s (l1 ++ l2) = freeAll (freeAll s l1) l2 := by
  induction l1 generalizing s with
  | nil => rfl
  | cons p rest ih =>
    simp only [List.cons_append, freeAll]
    exact ih (free s p)

lemma allocAll_run (g : Bool) (sizes : List Nat) :
    ∀ s : Heap, fits s.next sizes s.heap_end = true →
      contiguousFrom s.next sizes (allocAll g s sizes).1 ∧
      (allocAll g s sizes).2.next = layoutEnd s.next sizes ∧
      ∀ x, x < s.next → (allocAll g s sizes).2.mem x = s.mem x := by
  induction sizes with
  | nil =>
    intro s _
    exact ⟨trivial, rfl, fun _ _ => rfl⟩
  | cons sz rest ih =>
    intro s hf
    simp only [fits, Bool.and_eq_true, decide_eq_true_eq] at hf
    obtain ⟨⟨hw, hfit⟩, hrest⟩ := hf
    have hm := @malloc_fits s sz g hfit
    have hb := region_after_bounds hw
    have hnext : (malloc s sz g).2.next = region_after s.next sz := by rw [hm]
    have hend : (malloc s sz g).2.heap_end = s.heap_end := by rw [hm]
    have hmem : (malloc s sz g).2.mem = store32 s.mem s.next sz := by rw [hm]
    have ih' := ih ((malloc s sz g).2) (by rw [hnext, hend]; exact hrest)
    refine ⟨?_, ?_, ?_⟩
    · simp only [allocAll, contiguousFrom]
      refine ⟨by rw [hm], ?_⟩
      rw [← hnext]
      exact ih'.1
    · simp only [allocAll, layoutEnd]
      rw [ih'.2.1, hnext]
    · intro x hx
      simp only [allocAll]
      rw [ih'.2.2 x (by rw [hnext]; omega), hmem]
      exact store32_out (Or.inl hx)

lemma allocAll_aligned (g : Bool) (sizes : List Nat) :
    ∀ s : Heap, fits s.next sizes s.heap_end = true → s.next % 4 = 0 →
      ∀ r ∈ (allocAll g s sizes).1, ∀ p, r = some p → p % 4 = 0 := by
  induction sizes with
  | nil =>
    intro s _ _ r hr
    simp [allocAll] at hr
  | cons sz rest ih =>
    intro s hf ha r hr p hp
    simp only [fits, Bool.and_eq_true, decide_eq_true_eq] at hf
    obtain ⟨⟨hw, hfit⟩, hrest⟩ := hf
    have hm := @malloc_fits s sz g hfit
    have hb := region_after_bounds hw
    simp only [allocAll, List.mem_cons] at hr
    rcases hr with hr | hr
    · subst hr
      rw [hm] at hp
      simp only [Option.some.injEq] at hp
      omega
    · exact ih ((malloc s sz g).2) (by rw [hm]; exact hrest)
        (by rw [hm]; exact hb.2.2) r hr p hp

lemma allocAll_freeAll_reverse (g : Bool) (sizes : List Nat) :
    ∀ s : Heap, fits s.next sizes s.heap_end = true →
      freeAll (allocAll g s sizes).2
          (((allocAll g s sizes).1.map (fun r => r.getD 0)).reverse)
        = { (allocAll g s sizes).2 with next := s.next } := by
  induction sizes with
  | nil =>
    intro s _
    rfl
  | cons sz rest ih =>
    intro s hf
    simp only [fits, Bool.and_eq_true, decide_eq_true_eq] at hf
    obtain ⟨⟨hw, hfit⟩, hrest⟩ := hf
    have hm := @malloc_fits s sz g hfit
    have hb := region_after_bounds hw
    have hnext : (malloc s sz g).2.next = region_after s.next sz := by rw [hm]
    have hend : (malloc s sz g).2.heap_end = s.heap_end := by rw [hm]
    have hmem : (malloc s sz g).2.mem = store32 s.mem s.next sz := by rw [hm]
    have hfr : fits (malloc s sz g).2.next rest (malloc s sz g).2.heap_end = true := by
      rw [hnext, hend]; exact hrest
    have hrun := allocAll_run g rest ((malloc s sz g).2) hfr
    have ih' := ih ((malloc s sz g).2) hfr
    have hfirst : (malloc s sz g).1 = some (s.next + 4) := by rw [hm]
    simp only [allocAll, hfirst, List.map_cons, Option.getD_some, List.reverse_cons]
    rw [freeAll_append, ih']
    -- one final free of the first block, now the tail block
    show free { (allocAll g (malloc s sz g).2 rest).2 with next := (malloc s sz g).2.next }
        (s.next + 4) = _
    have hU : s.next + 4 < U32 := by unfold U32 at *; omega
    have hload : load32 (allocAll g (malloc s sz g).2 rest).2.mem s.next
        = load32 (malloc s sz g).2.mem s.next := by
      apply load32_congr
      all_goals exact hrun.2.2 _ (by rw [hnext]; omega)
    unfold free
    rw [if_neg (by omega), region_for_ptr_eq (by omega) hU, Nat.add_sub_cancel]
    dsimp only
    have hcond : region_after s.next
        (load32 (allocAll g (malloc s sz g).2 rest).2.mem s.next)
        = (malloc s sz g).2.next := by
      rw [hload, hmem, load32_store32_same, Nat.mod_eq_of_lt (by unfold U32 at *; omega)]
      exact hnext.symm
    rw [if_pos hcond]

/-- Claim C1 (code bug): calloc does not reject a count and size whose
product overflows 32-bit size arithmetic.  At count = size = 65536 the
product is 2^32, which wraps to 0, and calloc delegates malloc(0) and
returns a non-null pointer to a zero-byte region instead of failing. -/
theorem calloc_overflow_not_rejected :
    4294967296 ≤ 65536 * 65536 ∧
      (calloc freshHeap 65536 65536 true).1 = some 4 ∧
      (calloc freshHeap 65536 65536 true).1 ≠ none := by
  refine ⟨by norm_num, by decide, by decide⟩

/-- Claim C2 (code bug): when the host refuses a growth request, malloc
does not return null.  grow_heap compares the memory_grow result against
MAX_HEAP_SIZE instead of SIZE_MAX (the source's own comment questions the
constant), so a refusal (result SIZE_MAX) is reported as success and
malloc hands out a pointer past heap_end, mutating the state.  The state
below is reached from a fresh heap by malloc(65532), which moves the
cursor to heap_end = 65536; then malloc(8) with growth refused returns a
pointer instead of failing. -/
theorem refused_growth_returns_pointer :
    (malloc (malloc freshHeap 65532 true).2 8 false).1 = some 65540 ∧
      (malloc (malloc freshHeap 65532 true).2 8 false).1 ≠ none ∧
      (malloc (malloc freshHeap 65532 true).2 8 false).2.next = 65548 ∧
      (malloc (malloc freshHeap 65532 true).2 8 false).2.heap_end = 65536 := by
  refine ⟨by decide, by decide, by decide, by decide⟩

/-- Claim C3 (code bug): when the underlying malloc fails, calloc returns
null but still writes: it calls memset(NULL, 0, count * size), which on
linear memory zero-fills count * size bytes starting at address 0.  Here
malloc(5242880) fails (the footprint exceeds MAX_HEAP_SIZE), calloc
returns none, yet the byte at address 0, previously 1, has been zeroed. -/
theorem calloc_failure_still_writes :
    (calloc onesHeap 1 5242880 true).1 = none ∧
      onesHeap.mem 0 = 1 ∧
      (calloc onesHeap 1 5242880 true).2.mem 0 = 0 := by
  refine ⟨by decide, by decide, by decide⟩

/-- Claim C4 (confirmed): whenever malloc returns a null result, the
allocator state (heap_start, heap_end, cursor — indeed the whole state)
is exactly as before the call, and any subsequent malloc behaves
identically to how it would have before the failed call. -/
theorem malloc_none_stateless (s : Heap) (size : Nat) (grant : Bool)
    (h : (malloc s size grant).1 = none) :
    (malloc s size grant).2 = s ∧
      ∀ size2 grant2, malloc (malloc s size grant).2 size2 grant2
        = malloc s size2 grant2 := by
  have hs : (malloc s size grant).2 = s := by
    unfold malloc at h ⊢
    split_ifs at h ⊢ with h1 h2 h3
    · rfl
    · rw [grow_heap_true s.pages size grant] at h3
      simp at h3
  exact ⟨hs, fun size2 grant2 => by rw [hs]⟩

/-- Witness for C4: malloc(5000000) on a fresh one-page heap fails, the
state is unchanged, and a subsequent malloc(100) behaves as before. -/
theorem malloc_none_stateless_witness :
    (malloc freshHeap 5000000 true).1 = none ∧
      (malloc freshHeap 5000000 true).2 = freshHeap ∧
      malloc (malloc freshHeap 5000000 true).2 100 true
        = malloc freshHeap 100 true :=
  ⟨by decide, (malloc_none_stateless freshHeap 5000000 true (by decide)).1,
   (malloc_none_stateless freshHeap 5000000 true (by decide)).2 100 true⟩

/-- Claim C5 (code bug): the invariant cursor ≤ heap_end is not preserved
by malloc calls that grow the memory.  grow_heap requests pages for the
payload size only, ignoring the 4-byte header and alignment padding, so
from the reachable state cursor = heap_end = 65536 (after malloc(65532)
on a fresh heap, where the invariant still holds), a granted malloc(65536)
leaves cursor = 131076 past the new heap_end = 131072. -/
theorem granted_growth_breaks_invariant :
    (malloc freshHeap 65532 true).2.next ≤ (malloc freshHeap 65532 true).2.heap_end ∧
      (malloc (malloc freshHeap 65532 true).2 65536 true).1 = some 65540 ∧
      (malloc (malloc freshHeap 65532 true).2 65536 true).2.heap_end = 131072 ∧
      (malloc (malloc freshHeap 65532 true).2 65536 true).2.next = 131076 ∧
      (malloc (malloc freshHeap 65532 true).2 65536 true).2.heap_end
        < (malloc (malloc freshHeap 65532 true).2 65536 true).2.next := by
  refine ⟨by decide, by decide, by decide, by decide, by decide⟩

/-- Claim C6 (confirmed): for a still-live pointer p whose block end
equals the current cursor (the tail block), realloc rewinds the cursor to
the block's header and then behaves exactly as a fresh malloc(new_size)
from that rewound state — so the rewind happens before the allocate
attempt that may fail, no copy is performed, and on success the same
payload address p is returned. -/
theorem realloc_tail_in_place (s : Heap) (p new_size : Nat) (g : Bool)
    (hp : 4 ≤ p) (hU : p < U32)
    (htail : region_after (p - 4) (load32 s.mem (p - 4)) = s.next) :
    realloc s p new_size g = malloc { s with next := p - 4 } new_size g ∧
      ∀ q, (realloc s p new_size g).1 = some q → q = p := by
  have hr : region_for_ptr p = p - 4 := region_for_ptr_eq hp hU
  have h1 : realloc s p new_size g = malloc { s with next := p - 4 } new_size g := by
    unfold realloc
    rw [if_neg (by omega), hr, if_pos htail]
  refine ⟨h1, fun q hq => ?_⟩
  rw [h1] at hq
  have h2 : q = (p - 4) + 4 := malloc_some_addr hq
  omega

/-- Witness for C6: on a heap holding one block of size 5 at header 0
(payload 4, end 12 = cursor), realloc(4, 10) equals malloc(10) from the
rewound state and returns the same payload address 4. -/
theorem realloc_tail_in_place_witness :
    realloc tailBlockHeap 4 10 true = malloc { tailBlockHeap with next := 0 } 10 true ∧
      ∀ q, (realloc tailBlockHeap 4 10 true).1 = some q → q = 4 := by
  have h := realloc_tail_in_place tailBlockHeap 4 10 true (by decide) (by decide)
    (by decide)
  exact h

set_option maxHeartbeats 2000000 in
/-- Claim C7 (confirmed): allocate(A) then allocate(B) then free(B) then
allocate(C) with size(C) ≤ size(B) returns the same address as B's
payload — freeing the block whose end equals the cursor rewinds the
cursor to that block's header, reclaiming its footprint. -/
theorem tail_free_reclaims (s : Heap) (szA szB szC : Nat) (g1 g2 g3 : Bool)
    (h1 : s.next + 4 + szA + 3 < U32)
    (h2 : region_after s.next szA + 4 + szB + 3 < U32)
    (hfit : region_after (region_after s.next szA) szB ≤ s.heap_end)
    (hC : szC ≤ szB) :
    ∀ pB, (malloc (malloc s szA g1).2 szB g2).1 = some pB →
      (malloc (free (malloc (malloc s szA g1).2 szB g2).2 pB) szC g3).1 = some pB := by
  have hbA := region_after_bounds h1
  have hbB := region_after_bounds h2
  have hfitA : region_after s.next szA ≤ s.heap_end := by omega
  rw [malloc_fits g1 hfitA]
  dsimp only
  rw [malloc_fits g2 hfit]
  dsimp only
  intro pB hpB
  simp only [Option.some.injEq] at hpB
  subst hpB
  unfold free
  rw [if_neg (by omega), region_for_ptr_eq (by omega) (by omega), Nat.add_sub_cancel]
  rw [load32_store32_same, Nat.mod_eq_of_lt (by omega)]
  rw [if_pos rfl]
  dsimp only
  have hfitC : region_after (region_after s.next szA) szC ≤ s.heap_end := by
    have := region_after_mono hC h2
    omega
  rw [malloc_fits g3 hfitC]

/-- Witness for C7: on a fresh heap, allocate(4) gives payload 4,
allocate(8) gives payload 12, free(12) rewinds, and allocate(4) returns
payload 12 again. -/
theorem tail_free_reclaims_witness :
    (malloc (free (malloc (malloc freshHeap 4 true).2 8 true).2 12) 4 true).1
      = some 12 :=
  tail_free_reclaims freshHeap 4 8 4 true true true (by decide) (by decide)
    (by decide) (by decide) 12 (by decide)

/-- Counterexample for C8: the claim as stated says allocate(C) returns
the address EQUAL to B's block end; in fact malloc returns the payload
address 4 bytes past the header it places at B's block end.  On a fresh
heap with three allocations of size 4: A's payload is 4, B's is 12, B's
block end is 16, free(4) is a no-op, and allocate(C) returns 20 ≠ 16. -/
theorem nontail_free_return_cex :
    (malloc (free (malloc (malloc freshHeap 4 true).2 4 true).2 4) 4 true).1
        = some 20 ∧
      region_after (region_after freshHeap.next 4) 4 = 16 ∧
      (malloc (free (malloc (malloc freshHeap 4 true).2 4 true).2 4) 4 true).1
        ≠ some (region_after (region_after freshHeap.next 4) 4) := by
  refine ⟨by decide, by decide, by decide⟩

set_option maxHeartbeats 2000000 in
/-- Claim C8 (corrected): free of a non-tail block (and free(null))
changes nothing; after allocate(A), allocate(B), free(A), a subsequent
allocate(C) places C's block exactly at B's block end — returning the
payload address 4 bytes past B's block end, not B's block end itself —
and A's payload bytes remain byte-for-byte unchanged. -/
theorem nontail_free_noop_layout (s : Heap) (szA szB szC : Nat) (g1 g2 g3 : Bool)
    (h1 : s.next + 4 + szA + 3 < U32)
    (h2 : region_after s.next szA + 4 + szB + 3 < U32)
    (hfitB : region_after (region_after s.next szA) szB ≤ s.heap_end)
    (hfitC : region_after (region_after (region_after s.next szA) szB) szC
      ≤ s.heap_end) :
    free (malloc (malloc s szA g1).2 szB g2).2 0
        = (malloc (malloc s szA g1).2 szB g2).2 ∧
      free (malloc (malloc s szA g1).2 szB g2).2 (s.next + 4)
        = (malloc (malloc s szA g1).2 szB g2).2 ∧
      (malloc (free (malloc (malloc s szA g1).2 szB g2).2 (s.next + 4)) szC g3).1
        = some (region_after (region_after s.next szA) szB + 4) ∧
      ∀ x, s.next + 4 ≤ x → x < s.next + 4 + szA →
        (malloc (free (malloc (malloc s szA g1).2 szB g2).2 (s.next + 4)) szC g3).2.mem x
          = (malloc (malloc s szA g1).2 szB g2).2.mem x := by
  have hbA := region_after_bounds h1
  have hbB := region_after_bounds h2
  have hfitA : region_after s.next szA ≤ s.heap_end := by omega
  rw [malloc_fits g1 hfitA]
  dsimp only
  rw [malloc_fits g2 hfitB]
  dsimp only
  have hlA : load32
      (store32 (store32 s.mem s.next szA) (region_after s.next szA) szB) s.next
      = szA := by
    rw [load32_store32_out (Or.inr (by omega)), load32_store32_same,
      Nat.mod_eq_of_lt (by omega)]
  refine ⟨?_, ?_, ?_, ?_⟩
  · unfold free
    rw [if_pos rfl]
  · unfold free
    dsimp only
    rw [if_neg (by omega), region_for_ptr_eq (by omega) (by omega),
      Nat.add_sub_cancel, hlA, if_neg (by omega)]
  · unfold free
    dsimp only
    rw [if_neg (by omega), region_for_ptr_eq (by omega) (by omega),
      Nat.add_sub_cancel, hlA, if_neg (by omega)]
    rw [malloc_fits g3 hfitC]
  · intro x hx1 hx2
    unfold free
    dsimp only
    rw [if_neg (by omega), region_for_ptr_eq (by omega) (by omega),
      Nat.add_sub_cancel, hlA, if_neg (by omega)]
    rw [malloc_fits g3 hfitC]
    dsimp only
    exact store32_out (Or.inl (by omega))

/-- Witness for C8: on a fresh heap with three allocations of size 4,
free of the non-tail block A (payload 4) changes nothing, and allocate(C)
returns 20, the payload address 4 bytes past B's block end 16. -/
theorem nontail_free_noop_layout_witness :
    free (malloc (malloc freshHeap 4 true).2 4 true).2 4
        = (malloc (malloc freshHeap 4 true).2 4 true).2 ∧
      (malloc (free (malloc (malloc freshHeap 4 true).2 4 true).2 4) 4 true).1
        = some 20 := by
  have h := nontail_free_noop_layout freshHeap 4 4 4 true true true (by decide)
    (by decide) (by decide) (by decide)
  exact ⟨h.2.1, h.2.2.1.trans (by decide)⟩

/-- Claim C9 (confirmed): for any sequence of successful allocations with
sizes s1..sn starting from a 4-byte-aligned heap_start, every returned
payload address is 4-byte aligned, the blocks are laid out contiguously —
each payload is 4 bytes past its header and each block's computed end
address is the next block's header address — and the final cursor equals
the last block's end address. -/
theorem sequential_layout (s : Heap) (sizes : List Nat) (g : Bool)
    (hstart : s.next = s.heap_start) (halign : s.heap_start % 4 = 0)
    (hfits : fits s.next sizes s.heap_end = true) :
    contiguousFrom s.next sizes (allocAll g s sizes).1 ∧
      (∀ r ∈ (allocAll g s sizes).1, ∀ p, r = some p → p % 4 = 0) ∧
      (allocAll g s sizes).2.next = layoutEnd s.next sizes := by
  have h := allocAll_run g sizes s hfits
  exact ⟨h.1, allocAll_aligned g sizes s hfits (by rw [hstart]; exact halign), h.2.1⟩

/-- Witness for C9: allocating sizes 1, 2, 3 on a fresh heap yields the
contiguous layout and final cursor predicted by the layout functions. -/
theorem sequential_layout_witness :
    contiguousFrom freshHeap.next [1, 2, 3] (allocAll true freshHeap [1, 2, 3]).1 ∧
      (allocAll true freshHeap [1, 2, 3]).2.next
        = layoutEnd freshHeap.next [1, 2, 3] := by
  have h := sequential_layout freshHeap [1, 2, 3] true rfl (by decide) (by decide)
  exact ⟨h.1, h.2.2⟩

/-- Claim C10 (confirmed): freeing the pointers returned by a sequence of
successful allocations in reverse (LIFO) order rewinds the cursor all the
way back to heap_start — after each free the immediately preceding block
becomes the tail, so LIFO frees reclaim every block. -/
theorem lifo_frees_rewind_to_start (s : Heap) (sizes : List Nat) (g : Bool)
    (hstart : s.next = s.heap_start)
    (hfits : fits s.next sizes s.heap_end = true) :
    freeAll (allocAll g s sizes).2
        (((allocAll g s sizes).1.map (fun r => r.getD 0)).reverse)
      = { (allocAll g s sizes).2 with next := s.heap_start } := by
  rw [← hstart]
  exact allocAll_freeAll_reverse g sizes s hfits

/-- Witness for C10: allocating sizes 4, 8, 4 on a fresh heap and freeing
the three returned pointers in reverse order returns the cursor to
heap_start = 0. -/
theorem lifo_frees_rewind_to_start_witness :
    freeAll (allocAll true freshHeap [4, 8, 4]).2
        (((allocAll true freshHeap [4, 8, 4]).1.map (fun r => r.getD 0)).reverse)
      = { (allocAll true freshHeap [4, 8, 4]).2 with next := 0 } := by
  have h := lifo_frees_rewind_to_start freshHeap [4, 8, 4] true rfl (by decide)
  exact h

end WasmStdlib
